import Mathlib

/-!
Verification development for the NetBSD/atari keyboard driver
(`sys/arch/atari/dev/kbd.c`, rev 1.59).

The definitions below are a shallow embedding of the driver's data model and
operations: the interrupt-context ring-buffer producer (`kbdintr`), the
soft-interrupt consumer loop (`kbdsoft`), the vendor-packet reassembler
(`kbd_pkg_start` plus the accumulation branch of `kbdsoft`), the modifier
tracker (`kbd_do_modifier`), the input dispatcher (the routing tail of
`kbdsoft`), the bell parameter codec (`kbd_bell_sparms`/`kbd_bell_gparms`),
the command writer (`kbd_write`) and the ioctl handler (`kbdioctl`).

Machine integers are modelled as `Nat` (with explicit `% 2 ^ 32` where
`u_int` overflow can matter) and `Int` for C `int` values.  Bytes are `Nat`
values `< 256`.  Constants that `kbd.c` pulls from headers that are not part
of the sources at hand (`kbdvar.h`, `kbdmap.h`, `event_var.h`,
`vuid_event.h`, `acia.h`) are modelled from the specification; each such
definition is marked `Modelled from the spec:`.
-/

set_option maxRecDepth 10000
set_option linter.unusedVariables false

namespace AtariKbd

/-! ## Ring buffer (kbd.c lines 79-80, 130-132) -/

/-- Ring capacity: `#define KBD_RING_SIZE 256`. -/
def KBD_RING_SIZE : Nat := 256

/-- Ring index mask: `#define KBD_RING_MASK 255`. -/
def KBD_RING_MASK : Nat := 255

/-- The ring-buffer shared state: `kbd_ring[KBD_RING_SIZE]`, the producer
counter `kbd_rbput` and the consumer counter `kbd_rbget`.  The counters are
free-running (indexing is done modulo the ring size, as `kbd_rbput++ &
KBD_RING_MASK` does in the source); they are modelled as `Nat`, which is
faithful to the 32-bit `u_int` counters in every execution considered here
(the wrap at `2 ^ 32` is itself a multiple of the ring size). -/
structure Ring where
  buf : Nat → Nat
  put : Nat
  get : Nat

/-- The byte-store step of the hard interrupt handler `kbdintr`
(line 440): `kbd_ring[kbd_rbput++ & KBD_RING_MASK] = code;`. -/
def kbdintr_push (r : Ring) (code : Nat) : Ring :=
  { r with
    buf := fun i => if i = r.put % KBD_RING_SIZE then code else r.buf i
    put := r.put + 1 }

/-- A sequence of producer pushes (several interrupts, or one interrupt
reading several bytes in its `while` loop, lines 436-446). -/
def kbdintr_pushes (r : Ring) (cs : List Nat) : Ring :=
  cs.foldl kbdintr_push r

/-- The consumer resynchronization step of `kbdsoft` (lines 495-499):
`n -= get; if (n > KBD_RING_SIZE) { get += n - KBD_RING_SIZE; n =
KBD_RING_SIZE; }`; returns the adjusted `(get, n)`.  This idealized
form computes the backlog on unbounded counters; it agrees with the
source's 32-bit `int` arithmetic exactly while the backlog stays below
`2 ^ 31` (as under the at-most-capacity hypotheses it is used with).
The general wrapping model is `kbdsoft_resync32`/`kbdsoft_step32`
below. -/
def kbdsoft_resync (put get : Nat) : Nat × Nat :=
  let n := put - get
  if n > KBD_RING_SIZE then (get + (n - KBD_RING_SIZE), KBD_RING_SIZE)
  else (get, n)

/-- One full drain pass of the `kbdsoft` outer loop (lines 489-501, 593),
run with no concurrent producer activity: if `get == kbd_rbput` the loop
exits at once; otherwise the count is clamped by `kbdsoft_resync` and the
inner `while (--n >= 0) code = kbd_ring[get++ & KBD_RING_MASK]` loop reads
`n` consecutive bytes.  Returns the list of bytes consumed, in consumption
order, together with the final value stored back into `kbd_rbget`. -/
def kbdsoft_drain (r : Ring) : List Nat × Nat :=
  if r.put - r.get = 0 then ([], r.get)
  else
    let gn := kbdsoft_resync r.put r.get
    ((List.range gn.2).map fun i => r.buf ((gn.1 + i) % KBD_RING_SIZE),
     gn.1 + gn.2)

/-! ### The 32-bit counter model

`kbd_rbput`/`kbd_rbget` are 32-bit `u_int` globals and `kbdsoft` reads
them into 32-bit `int` locals (`int put, get, n;`), so the backlog
`n = kbd_rbput; n -= get;` is the wrapping difference reinterpreted as a
signed value.  The definitions below make that arithmetic explicit; the
counters are kept below `2 ^ 32` (as the `u_int` globals are). -/

/-- Modelled from the spec: `KBD_SCANCODE` (kbdvar.h) — "low 7 bits identify
the physical key". -/
def KBD_SCANCODE (code : Nat) : Nat := code &&& 0x7f

/-- Modelled from the spec: `KBD_RELEASED` (kbdvar.h) — "high bit indicates
release vs. press"; nonzero means release. -/
def KBD_RELEASED (code : Nat) : Nat := code &&& 0x80

/-- Modelled from the spec: `KBD_IS_KEY` (kbdvar.h) — a byte in the reserved
high range of vendor packet headers (the closed set 0xf6..0xff handled by
`kbd_pkg_start`) is never a valid key scancode. -/
def KBD_IS_KEY (code : Nat) : Bool := code < 0xf6

/-- Modelled from the spec: packet-type tags `KBD_MEM_PKG` ..
`KBD_JOY1_PKG` (kbdvar.h); the enumeration of `PacketAssembly.packetType`. -/
def KBD_MEM_PKG : Nat := 0

/-- Modelled from the spec: absolute-mouse packet type (kbdvar.h). -/
def KBD_AMS_PKG : Nat := 1

/-- Modelled from the spec: relative-mouse packet type (kbdvar.h). -/
def KBD_RMS_PKG : Nat := 2

/-- Modelled from the spec: clock packet type (kbdvar.h). -/
def KBD_CLK_PKG : Nat := 3

/-- Modelled from the spec: joystick-0 packet type (kbdvar.h). -/
def KBD_JOY0_PKG : Nat := 4

/-- Modelled from the spec: joystick-1 packet type (kbdvar.h). -/
def KBD_JOY1_PKG : Nat := 5

/-! ## Modifier scancodes and mask bits

From `kbdmap.h`, not among the sources at hand. -/

/-- Modelled from the spec: left-shift scancode (kbdmap.h). -/
def KBD_LEFT_SHIFT : Nat := 0x2a

/-- Modelled from the spec: right-shift scancode (kbdmap.h). -/
def KBD_RIGHT_SHIFT : Nat := 0x36

/-- Modelled from the spec: control scancode (kbdmap.h). -/
def KBD_CTRL : Nat := 0x1d

/-- Modelled from the spec: alt scancode (kbdmap.h). -/
def KBD_ALT : Nat := 0x38

/-- Modelled from the spec: caps-lock scancode (kbdmap.h). -/
def KBD_CAPS_LOCK : Nat := 0x3a

/-- Modelled from the spec: left-shift mask bit (kbdmap.h); the masks are
distinct single bits of the modifier bitmask. -/
def KBD_MOD_LSHIFT : Nat := 0x01

/-- Modelled from the spec: right-shift mask bit (kbdmap.h). -/
def KBD_MOD_RSHIFT : Nat := 0x02

/-- Modelled from the spec: control mask bit (kbdmap.h). -/
def KBD_MOD_CTRL : Nat := 0x04

/-- Modelled from the spec: alt mask bit (kbdmap.h). -/
def KBD_MOD_ALT : Nat := 0x08

/-- Modelled from the spec: caps-lock toggle bit (kbdmap.h). -/
def KBD_MOD_CAPS : Nat := 0x10

/-- Modelled from the spec: event-queue capacity `EV_QSIZE`
(event_var.h) — the event queue is a fixed-capacity circular buffer. -/
def EV_QSIZE : Nat := 256

/-- Modelled from the spec: `VKEY_UP` (vuid_event.h). -/
def VKEY_UP : Nat := 0

/-- Modelled from the spec: `VKEY_DOWN` (vuid_event.h). -/
def VKEY_DOWN : Nat := 1

/-- Modelled from the spec: ACIA control bit `A_TXINT` (acia.h), the
transmit-interrupt enable bit in `sc_soft_cs`. -/
def A_TXINT : Nat := 0x20

/-- Errno `EPERM` (errno.h). -/
def EPERM : Int := 1

/-- Errno `ENOTTY` (errno.h). -/
def ENOTTY : Int := 25

/-- Errno `EOPNOTSUPP` (errno.h). -/
def EOPNOTSUPP : Int := 45

/-- Translation mode `TR_UNTRANS_EVENT` (kbio.h). -/
def TR_UNTRANS_EVENT : Int := 0

/-- Pointwise array write, used for `sc_package[i] = v`, `sound[i] = v` and
`ev_q[i] = e`. -/
def upd {α : Type} (s : Nat → α) (i : Nat) (v : α) : Nat → α :=
  fun j => if j = i then v else s j

/-! ## The modifier tracker (kbd.c lines 811-846) -/

/-- The modifier tracker.  `kbd_modifier` is a file-scope `uint8_t`; `kbd_do_modifier` consumes a
scancode and returns the updated modifier mask together with the C return
value (`true` = the code was a modifier/toggle).  `kbd_modifier &= ~mask`
acts on a `uint8_t`, i.e. the complement is taken within 8 bits. -/
def kbd_do_modifier (kbd_modifier : Nat) (code : Nat) : Nat × Bool :=
  let up := KBD_RELEASED code
  let key := KBD_SCANCODE code
  if key = KBD_CAPS_LOCK then
    -- CAPSLOCK is a toggle: toggles only on press, always reports a modifier
    (if up = 0 then kbd_modifier ^^^ KBD_MOD_CAPS else kbd_modifier, true)
  else
    let mask : Nat :=
      if key = KBD_LEFT_SHIFT then KBD_MOD_LSHIFT
      else if key = KBD_RIGHT_SHIFT then KBD_MOD_RSHIFT
      else if key = KBD_CTRL then KBD_MOD_CTRL
      else if key = KBD_ALT then KBD_MOD_ALT
      else 0
    if mask ≠ 0 then
      (if up ≠ 0 then kbd_modifier &&& (255 ^^^ mask) else kbd_modifier ||| mask,
       true)
    else (kbd_modifier, false)

/-- Holds iff `KBD_SCANCODE code` is one of the scancodes the
`kbd_do_modifier` switch recognizes. -/
def isModifierCode (code : Nat) : Bool :=
  decide (KBD_SCANCODE code = KBD_LEFT_SHIFT ∨
          KBD_SCANCODE code = KBD_RIGHT_SHIFT ∨
          KBD_SCANCODE code = KBD_CTRL ∨
          KBD_SCANCODE code = KBD_ALT ∨
          KBD_SCANCODE code = KBD_CAPS_LOCK)

/-! ## Driver state and the soft-interrupt handler -/

/-- A `struct firm_event` as filled in by `kbdsoft` (lines 586-588):
`fe->id`, `fe->value` and the `firm_gettime` timestamp. -/
structure FirmEvent where
  id : Nat
  value : Nat
  time : Nat
deriving DecidableEq

/-- The driver state visible to the soft handler and the ioctl handler:
the `kbd_softc` fields used by `kbd.c` plus the file-scope globals
`kbd_modifier` and `sound`.  C `int` flags keep their integer type
(`sc_event_mode`, `sc_pollingmode`); `sc_wskbddev` is reduced to
attached/not-attached (pointer null or not); the event queue fields
(`ev_put`, `ev_get`, `ev_q`, `ev_async`) and the opener identity
(`ev_io->p_pid`, `ev_io->p_pgid`) stand for the parts of `struct evvar`
this driver touches. -/
structure KbdState where
  sc_event_mode : Int
  sc_package : Nat → Nat
  sc_pkg_size : Nat
  sc_pkg_idx : Nat
  sc_pkg_type : Nat
  sc_wskbddev : Bool
  sc_pollingmode : Int
  ev_put : Nat
  ev_get : Nat
  ev_q : Nat → FirmEvent
  ev_async : Bool
  ev_io_pid : Int
  ev_io_pgid : Int
  kbd_modifier : Nat
  sound : Nat → Nat

/-- The observable effects of one `kbdsoft` iteration: a completed vendor
packet handed to `mouse_soft`, a keystroke handed to `wskbd_input`, a
scancode handed to `ite_filter`, an event stored in the queue, the
queue-overflow `log(LOG_WARNING, ...)`, or the unknown-packet `printf`. -/
inductive KbdOut where
  | mouse (payload : List Nat) (size : Nat) (ptype : Nat)
  | wskbd (up : Bool) (key : Nat)
  | ite (code : Nat)
  | evPut (e : FirmEvent)
  | evOverflow
  | unknownPkg (code : Nat)
deriving DecidableEq

/-- Function `kbd_pkg_start` (kbd.c lines 767-805): set up `softc` fields to
assemble a keyboard package.  The default (unknown header) case only
prints; note that `sc_pkg_idx`/`sc_package[0]` are set before the switch,
and `sc_pkg_size` is left untouched in the default case. -/
def kbd_pkg_start (sc : KbdState) (msg_start : Nat) : KbdState × List KbdOut :=
  let sc := { sc with sc_pkg_idx := 1,
                      sc_package := upd sc.sc_package 0 msg_start }
  if msg_start = 0xf6 then
    ({ sc with sc_pkg_type := KBD_MEM_PKG, sc_pkg_size := 8 }, [])
  else if msg_start = 0xf7 then
    ({ sc with sc_pkg_type := KBD_AMS_PKG, sc_pkg_size := 6 }, [])
  else if msg_start = 0xf8 ∨ msg_start = 0xf9 ∨
          msg_start = 0xfa ∨ msg_start = 0xfb then
    ({ sc with sc_pkg_type := KBD_RMS_PKG, sc_pkg_size := 3 }, [])
  else if msg_start = 0xfc then
    ({ sc with sc_pkg_type := KBD_CLK_PKG, sc_pkg_size := 7 }, [])
  else if msg_start = 0xfe then
    ({ sc with sc_pkg_type := KBD_JOY0_PKG, sc_pkg_size := 2 }, [])
  else if msg_start = 0xff then
    ({ sc with sc_pkg_type := KBD_JOY1_PKG, sc_pkg_size := 2 }, [])
  else
    (sc, [.unknownPkg msg_start])

/-- The routing tail of the `kbdsoft` per-byte loop (kbd.c lines 536-591),
reached for a plain scancode (no package in progress, `KBD_IS_KEY`):
wskbd bridge delivery, modifier tracking, ite delivery, or event-queue
delivery with drop-on-full.  `now` is the `firm_gettime` timestamp. -/
def kbd_plain_dispatch (sc : KbdState) (code now : Nat) : KbdState × List KbdOut :=
  if sc.sc_pollingmode = 0 ∧ sc.sc_wskbddev = true ∧ sc.sc_event_mode = 0 then
    (sc, [.wskbd (KBD_RELEASED code != 0) (KBD_SCANCODE code)])
  else
    let r := kbd_do_modifier sc.kbd_modifier code
    let sc := { sc with kbd_modifier := r.1 }
    if r.2 = true ∧ sc.sc_event_mode = 0 then
      (sc, [])
    else if sc.sc_event_mode = 0 then
      (sc, [.ite code])
    else
      let put := sc.ev_put
      let put1 := (put + 1) % EV_QSIZE
      if put1 = sc.ev_get then
        (sc, [.evOverflow])
      else
        let fe : FirmEvent :=
          { id := KBD_SCANCODE code
            value := if KBD_RELEASED code != 0 then VKEY_UP else VKEY_DOWN
            time := now }
        ({ sc with ev_q := upd sc.ev_q put fe, ev_put := put1 }, [.evPut fe])

/-- One iteration of the `kbdsoft` inner per-byte loop (kbd.c lines
500-592) on the byte `code`: package accumulation (with `mouse_soft`
dispatch of completed AMS/RMS/JOY1 packages), package-header start, or
plain-scancode routing. -/
def kbd_code_step (sc : KbdState) (code now : Nat) : KbdState × List KbdOut :=
  if sc.sc_pkg_size ≠ 0 ∧ sc.sc_pkg_idx < sc.sc_pkg_size then
    let sc := { sc with sc_package := upd sc.sc_package sc.sc_pkg_idx code,
                        sc_pkg_idx := sc.sc_pkg_idx + 1 }
    if sc.sc_pkg_idx = sc.sc_pkg_size then
      let outs :=
        if sc.sc_pkg_type = KBD_AMS_PKG ∨ sc.sc_pkg_type = KBD_RMS_PKG ∨
           sc.sc_pkg_type = KBD_JOY1_PKG then
          [KbdOut.mouse ((List.range sc.sc_pkg_size).map sc.sc_package)
            sc.sc_pkg_size sc.sc_pkg_type]
        else []
      ({ sc with sc_pkg_size := 0 }, outs)
    else (sc, [])
  else if ¬ KBD_IS_KEY code then
    kbd_pkg_start sc code
  else
    kbd_plain_dispatch sc code now

/-- Feeding a sequence of drained bytes through the `kbdsoft` per-byte
loop, collecting the outputs in order. -/
def kbd_feed (sc : KbdState) (cs : List Nat) (now : Nat) : KbdState × List KbdOut :=
  match cs with
  | [] => (sc, [])
  | c :: rest =>
    let s1 := kbd_code_step sc c now
    let s2 := kbd_feed s1.1 rest now
    (s2.1, s1.2 ++ s2.2)

/-- Feeding a sequence of bytes through the plain-scancode routing only
(no package handling); used to express that once no assembly is in
progress, non-header bytes are handled exactly as plain scancodes. -/
def kbd_plain_feed (sc : KbdState) (cs : List Nat) (now : Nat) : KbdState × List KbdOut :=
  match cs with
  | [] => (sc, [])
  | c :: rest =>
    let s1 := kbd_plain_dispatch sc c now
    let s2 := kbd_plain_feed s1.1 rest now
    (s2.1, s1.2 ++ s2.2)

/-! ## Bell parameter codec (kbd.c lines 597-663) -/

/-- Bell clock base: `#define KBDBELLCLOCK 125000`. -/
def KBDBELLCLOCK : Nat := 125000

/-- Bell duration base: `#define KBDBELLDURATION 128`. -/
def KBDBELLDURATION : Nat := 128

/-- The initial contents of the file-scope `sound[]` table (lines
597-600); indices beyond 13 are irrelevant and read as 0. -/
def sound_init : Nat → Nat := fun i =>
  [0xA8, 0x01, 0xA9, 0x01, 0xAA, 0x01, 0x00,
   0xF8, 0x10, 0x10, 0x10, 0x00, 0x20, 0x03].getD i 0

/-- Function `kbd_bell_sparms` (lines 637-663): encode `(volume, pitch, duration)`
into the `sound[]` waveform table.  All parameters are `u_int`; the only
multiplication that can exceed 32 bits, `duration * 1000`, is reduced
modulo `2 ^ 32`.  `volume` is accepted but not encoded. -/
def kbd_bell_sparms (volume pitch duration : Nat) (sound : Nat → Nat) : Nat → Nat :=
  let f0 := if pitch > 10 then pitch else 10
  let f1 := if f0 > 20000 then 20000 else f0
  let f := KBDBELLCLOCK / f1
  let t := duration * 1000 % 2 ^ 32 / KBDBELLDURATION
  let s := upd sound 0 (f &&& 0xff)
  let s := upd s 1 ((f >>> 8) &&& 0xf)
  let fm := f - 1
  let s := upd s 2 (fm &&& 0xff)
  let s := upd s 3 ((fm >>> 8) &&& 0xf)
  let fp := fm + 2
  let s := upd s 4 (fp &&& 0xff)
  let s := upd s 5 ((fp >>> 8) &&& 0xf)
  let s := upd s 11 (t &&& 0xff)
  let s := upd s 12 ((t >>> 8) &&& 0xff)
  upd s 13 0x03

/-- Function `kbd_bell_gparms` (lines 623-635): decode the `sound[]` table back
into `(volume, pitch, duration)` (returned in that order, matching the
three out-parameters). -/
def kbd_bell_gparms (sound : Nat → Nat) : Nat × Nat × Nat :=
  let tmpd := sound 11 ||| (sound 12 <<< 8)
  let duration := tmpd * KBDBELLDURATION / 1000
  let tmpp := sound 0 ||| (sound 1 <<< 8)
  let pitch := KBDBELLCLOCK / tmpp
  (0, pitch, duration)

/-- The pitch clamp performed at the top of `kbd_bell_sparms`
(lines 642-644), written with `min`/`max`. -/
def bellClampedPitch (pitch : Nat) : Nat := min (max pitch 10) 20000

/-! ## Command writer (kbd.c lines 721-762) -/

/-- The outcome of one `kbd_write` call, recorded up to its first blocking
point: the bytes written synchronously to the ACIA data register, whether
the `"kbd_write1"` wait-for-previous-write `tsleep` was reached, whether
the `"kbd_write2"` wait-for-drain `tsleep` was reached, and the outbound
state (`sc_sendp` as the remaining byte list, `sc_send_cnt`) and control
register copy at return (or at the blocking point). -/
structure WriteResult where
  sent : List Nat
  sleptPrev : Bool
  sleptDrain : Bool
  sc_sendp : Option (List Nat)
  sc_send_cnt : Int
  sc_soft_cs : Nat
deriving DecidableEq

/-- Function `kbd_write` (lines 721-762), modelled as a function of the relevant
pre-state: `sendp0`/`cnt0` are `sc_sendp` (as the remaining byte list, or
`none` for NULL) and `sc_send_cnt`; `soft_cs0` is `sc_soft_cs`; `txrdy`
says whether the ACIA reports `A_TXRDY` immediately after transmit
interrupts are enabled; `cmd`/`len` are the arguments.  Execution past a
`tsleep` requires the interrupt handler and is not modelled: the result
then records the state at the blocking point. -/
def kbd_write (sendp0 : Option (List Nat)) (cnt0 : Int) (soft_cs0 : Nat)
    (txrdy : Bool) (cmd : List Nat) (len : Int) : WriteResult :=
  if sendp0.isSome then
    -- while (sc->sc_sendp != NULL) tsleep(..., "kbd_write1", ...);
    { sent := [], sleptPrev := true, sleptDrain := false,
      sc_sendp := sendp0, sc_send_cnt := cnt0, sc_soft_cs := soft_cs0 }
  else
    -- KBD->ac_cs = (sc->sc_soft_cs |= A_TXINT);
    let soft_cs := soft_cs0 ||| A_TXINT
    -- if ((KBD->ac_cs & A_TXRDY) != 0) { KBD->ac_da = *cmd++; len--; }
    let step := if txrdy then ([cmd.headD 0], cmd.tail, len - 1)
                else ([], cmd, len)
    if step.2.2 > 0 then
      -- sc->sc_sendp = cmd; sc->sc_send_cnt = len; tsleep("kbd_write2");
      { sent := step.1, sleptPrev := false, sleptDrain := true,
        sc_sendp := some step.2.1, sc_send_cnt := step.2.2,
        sc_soft_cs := soft_cs }
    else
      { sent := step.1, sleptPrev := false, sleptDrain := false,
        sc_sendp := none, sc_send_cnt := cnt0, sc_soft_cs := soft_cs }

/-! ## The ioctl handler (kbd.c lines 344-401) -/

/-- The ioctl requests `kbdioctl` recognizes, each carrying the `int`
read through `data` where the handler reads one (`KIOCRINGBELL` carries
the optional `struct kbdbell`); `unsupported` stands for every
unrecognized request code. -/
inductive IoctlCmd where
  | kiocTrans (v : Int)
  | kiocGTrans
  | kiocSDirect (v : Int)
  | kiocRingBell (kb : Option (Nat × Nat × Nat))
  | fionbio
  | fioAsync (v : Int)
  | fioSetOwn (v : Int)
  | tiocSPGrp (v : Int)
  | unsupported

/-- Function `kbdioctl` (lines 344-401): returns the errno result and the new
driver state.  `FIOSETOWN` and `TIOCSPGRP` only compare the request value
against the registered opener (`sc_events.ev_io->p_pgid` / `p_pid`). -/
def kbdioctl (sc : KbdState) (cmd : IoctlCmd) : Int × KbdState :=
  match cmd with
  | .kiocTrans v =>
    if v = TR_UNTRANS_EVENT then (0, sc) else (EOPNOTSUPP, sc)
  | .kiocGTrans => (0, sc)
  | .kiocSDirect v => (0, { sc with sc_event_mode := v })
  | .kiocRingBell kb =>
    match kb with
    | some p =>
      (0, { sc with sound := kbd_bell_sparms p.1 p.2.1 p.2.2 sc.sound })
    | none => (0, sc)
  | .fionbio => (0, sc)
  | .fioAsync v => (0, { sc with ev_async := v != 0 })
  | .fioSetOwn v =>
    if -v ≠ sc.ev_io_pgid ∧ v ≠ sc.ev_io_pid then (EPERM, sc) else (0, sc)
  | .tiocSPGrp v =>
    if v ≠ sc.ev_io_pgid then (EPERM, sc) else (0, sc)
  | .unsupported => (ENOTTY, sc)

/-- A concrete driver state used to instantiate theorems: event mode off,
no bridge, empty queue, all masks clear. -/
def initState : KbdState :=
  { sc_event_mode := 0, sc_package := fun _ => 0, sc_pkg_size := 0
    sc_pkg_idx := 0, sc_pkg_type := 0, sc_wskbddev := false
    sc_pollingmode := 0, ev_put := 0, ev_get := 0
    ev_q := fun _ => ⟨0, 0, 0⟩, ev_async := false
    ev_io_pid := 1, ev_io_pgid := 1, kbd_modifier := 0, sound := sound_init }

/-! ## Ring buffer lemmas -/

lemma kbdintr_pushes_put (r : Ring) (cs : List Nat) :
    (kbdintr_pushes r cs).put = r.put + cs.length := by
  induction cs generalizing r with
  | nil => simp [kbdintr_pushes]
  | cons c rest ih =>
    simp only [kbdintr_pushes, List.foldl_cons] at *
    rw [ih]
    simp [kbdintr_push]
    omega

lemma kbdintr_pushes_get (r : Ring) (cs : List Nat) :
    (kbdintr_pushes r cs).get = r.get := by
  induction cs generalizing r with
  | nil => rfl
  | cons c rest ih =>
    simp only [kbdintr_pushes, List.foldl_cons] at *
    rw [ih]
    rfl

lemma kbdintr_pushes_cons (r : Ring) (c : Nat) (rest : List Nat) :
    kbdintr_pushes r (c :: rest) = kbdintr_pushes (kbdintr_push r c) rest :=
  rfl

lemma mod_add_ne (p d : Nat) (h0 : 0 < d) (h1 : d < KBD_RING_SIZE) :
    p % KBD_RING_SIZE ≠ (p + d) % KBD_RING_SIZE := by
  simp only [KBD_RING_SIZE] at *
  omega

lemma kbdintr_pushes_buf_untouched (r : Ring) (cs : List Nat) (x : Nat)
    (hx : ∀ j < cs.length, x ≠ (r.put + j) % KBD_RING_SIZE) :
    (kbdintr_pushes r cs).buf x = r.buf x := by
  induction cs generalizing r with
  | nil => rfl
  | cons c rest ih =>
    simp only [kbdintr_pushes, List.foldl_cons] at *
    rw [ih]
    · simp only [kbdintr_push]
      have hx0 := hx 0 (by simp)
      simp only [Nat.add_zero] at hx0
      simp [hx0]
    · intro j hj
      simp only [kbdintr_push]
      have := hx (j + 1) (by simpa using Nat.succ_lt_succ hj)
      simpa [Nat.add_assoc, Nat.add_comm 1 j] using this

lemma kbdintr_pushes_buf_read (cs : List Nat) (r : Ring) (i : Nat)
    (h1 : i < cs.length) (h2 : cs.length ≤ i + KBD_RING_SIZE) :
    (kbdintr_pushes r cs).buf ((r.put + i) % KBD_RING_SIZE) = cs.getD i 0 := by
  induction cs generalizing r i with
  | nil => simp at h1
  | cons c rest ih =>
    match i with
    | 0 =>
      rw [kbdintr_pushes_cons, List.getD_cons_zero]
      rw [kbdintr_pushes_buf_untouched]
      · simp [kbdintr_push]
      · intro j hj
        simp only [kbdintr_push]
        have : (r.put + 0) % KBD_RING_SIZE = r.put % KBD_RING_SIZE := by
          simp
        rw [this, Nat.add_assoc]
        apply mod_add_ne
        · omega
        · simp only [List.length_cons, KBD_RING_SIZE] at h2 ⊢
          omega
    | i' + 1 =>
      rw [kbdintr_pushes_cons, List.getD_cons_succ]
      have := ih (kbdintr_push r c) i'
        (by simpa using Nat.lt_of_succ_lt_succ h1)
        (by simp only [List.length_cons] at h2; omega)
      simp only [kbdintr_push] at this
      simpa [Nat.add_assoc, Nat.add_comm 1 i'] using this

lemma kbdsoft_drain_pushes (r : Ring) (cs : List Nat)
    (hsync : r.get = r.put) (hlen : cs.length ≤ KBD_RING_SIZE) :
    (kbdsoft_drain (kbdintr_pushes r cs)).1 = cs ∧
    (kbdsoft_drain (kbdintr_pushes r cs)).2 = (kbdintr_pushes r cs).put := by
  have hput := kbdintr_pushes_put r cs
  have hget := kbdintr_pushes_get r cs
  rcases cs with _ | ⟨c, rest⟩
  · simp [kbdsoft_drain, hput, hget, hsync]
  · set cs := c :: rest with hcs
    have hne : (kbdintr_pushes r cs).put - (kbdintr_pushes r cs).get ≠ 0 := by
      rw [hput, hget, hsync]
      simp [hcs]
    have hresync : kbdsoft_resync (kbdintr_pushes r cs).put
        (kbdintr_pushes r cs).get = ((kbdintr_pushes r cs).get, cs.length) := by
      rw [kbdsoft_resync, hput, hget, hsync]
      simp only [Nat.add_sub_cancel_left]
      rw [if_neg (by omega)]
    constructor
    · rw [kbdsoft_drain, if_neg hne, hresync]
      apply List.ext_getElem
      · simp
      · intro i hi1 hi2
        simp only [List.getElem_map, List.getElem_range] at hi1 ⊢
        simp only [List.length_map, List.length_range] at hi1
        rw [hget, hsync]
        rw [kbdintr_pushes_buf_read cs r i hi1 (by omega)]
        exact List.getD_eq_getElem cs 0 hi2
    · rw [kbdsoft_drain, if_neg hne, hresync]
      simp only [hput, hget, hsync]

/-- C1 — For every sequence of bytes pushed by the producer (`kbdintr`)
whose length does not exceed the ring capacity (256), a single consumer
drain pass (`kbdsoft`) yields exactly the pushed bytes, in push order
(and leaves the consumer cursor caught up with the producer). -/
theorem ring_push_drain_roundtrip (r : Ring) (cs : List Nat)
    (hsync : r.get = r.put) (hlen : cs.length ≤ KBD_RING_SIZE)
    (hbytes : ∀ c ∈ cs, c < 256) :
    (kbdsoft_drain (kbdintr_pushes r cs)).1 = cs ∧
    (kbdsoft_drain (kbdintr_pushes r cs)).2 = (kbdintr_pushes r cs).put :=
  kbdsoft_drain_pushes r cs hsync hlen

/-- C1 witness. -/
theorem ring_push_drain_roundtrip_witness :
    (⟨fun _ => 0, 0, 0⟩ : Ring).get = (⟨fun _ => 0, 0, 0⟩ : Ring).put ∧
    ([17, 3, 250] : List Nat).length ≤ KBD_RING_SIZE ∧
    (kbdsoft_drain (kbdintr_pushes ⟨fun _ => 0, 0, 0⟩ [17, 3, 250])).1 =
      [17, 3, 250] :=
  ⟨rfl, by decide,
   (ring_push_drain_roundtrip ⟨fun _ => 0, 0, 0⟩ [17, 3, 250] rfl
     (by decide) (by decide)).1⟩

/-! ## Ring buffer lemmas and theorems, 32-bit model -/

/-- A scancode the `kbd_do_modifier` switch does not recognize leaves the
modifier mask unchanged and returns false. -/
lemma kbd_do_modifier_nonmod (m code : Nat) (h : isModifierCode code = false) :
    kbd_do_modifier m code = (m, false) := by
  simp only [isModifierCode, decide_eq_false_iff_not, not_or] at h
  obtain ⟨h1, h2, h3, h4, h5⟩ := h
  simp [kbd_do_modifier, h1, h2, h3, h4, h5]

/-- A modifier or caps-lock scancode always makes `kbd_do_modifier`
return true. -/
lemma kbd_do_modifier_mod (m code : Nat) (h : isModifierCode code = true) :
    (kbd_do_modifier m code).2 = true := by
  simp only [isModifierCode, decide_eq_true_eq] at h
  simp only [kbd_do_modifier]
  rcases h with h | h | h | h | h <;>
    simp [h, KBD_LEFT_SHIFT, KBD_RIGHT_SHIFT, KBD_CTRL, KBD_ALT,
      KBD_CAPS_LOCK, KBD_MOD_LSHIFT, KBD_MOD_RSHIFT, KBD_MOD_CTRL,
      KBD_MOD_ALT]

/-- C5 counterexample — the claim quantifies over every starting state;
from the state in which left-shift is already held
(`kbd_modifier = KBD_MOD_LSHIFT`), a left-shift press followed by a
left-shift release does not return the mask to its pre-press value (it
clears the bit instead). -/
theorem kbd_do_modifier_lshift_counterexample :
    ¬ ((kbd_do_modifier (kbd_do_modifier KBD_MOD_LSHIFT KBD_LEFT_SHIFT).1
        (KBD_LEFT_SHIFT ||| 0x80)).1 = KBD_MOD_LSHIFT) := by
  decide

/-- C5 (amended) — for the modifier tracker `kbd_do_modifier`, from any
8-bit state: a left-shift press followed by a left-shift release returns
the mask to its pre-press value provided left-shift was not already held;
caps-lock press twice, with or without an intervening release, returns
the caps toggle bit to its original value; each caps-lock press toggles
the caps bit and a caps-lock release changes nothing; any scancode that
is not shift/ctrl/alt/caps-lock leaves the state unchanged and returns
false, while modifier and caps-lock scancodes always return true. -/
theorem kbd_do_modifier_props :
    (∀ m, m < 256 →
      (m &&& KBD_MOD_LSHIFT = 0 →
        (kbd_do_modifier (kbd_do_modifier m KBD_LEFT_SHIFT).1
          (KBD_LEFT_SHIFT ||| 0x80)).1 = m) ∧
      (kbd_do_modifier (kbd_do_modifier m KBD_CAPS_LOCK).1
        KBD_CAPS_LOCK).1 = m ∧
      (kbd_do_modifier (kbd_do_modifier (kbd_do_modifier m KBD_CAPS_LOCK).1
        (KBD_CAPS_LOCK ||| 0x80)).1 KBD_CAPS_LOCK).1 = m ∧
      (kbd_do_modifier m KBD_CAPS_LOCK).1 = m ^^^ KBD_MOD_CAPS ∧
      (kbd_do_modifier m (KBD_CAPS_LOCK ||| 0x80)).1 = m) ∧
    (∀ m code, isModifierCode code = true →
      (kbd_do_modifier m code).2 = true) ∧
    (∀ m code, isModifierCode code = false →
      kbd_do_modifier m code = (m, false)) :=
  ⟨by decide, kbd_do_modifier_mod, kbd_do_modifier_nonmod⟩

/-- C5 witness: from state 4 (ctrl held), left-shift press then release
restores the mask. -/
theorem kbd_do_modifier_props_witness :
    (kbd_do_modifier (kbd_do_modifier 4 KBD_LEFT_SHIFT).1
      (KBD_LEFT_SHIFT ||| 0x80)).1 = 4 :=
  (kbd_do_modifier_props.1 4 (by decide)).1 (by decide)

/-! ## Packet reassembler -/

/-- C3 — when no assembly is in progress, feeding header `0xFA` followed by
two arbitrary bytes produces exactly one completed relative-mouse packet
with payload `[0xFA, b1, b2]` handed to `mouse_soft`, and returns the
reassembler to idle (`sc_pkg_size = 0`); and `kbd_pkg_start` implements the
header-to-length table memory (0xF6) = 8, absolute-mouse (0xF7) = 6,
relative-mouse variants (0xF8..0xFB) = 3, clock (0xFC) = 7, joystick0
(0xFE) = 2, joystick1 (0xFF) = 2. -/
theorem pkg_fa_assembly (sc : KbdState) (b1 b2 now : Nat)
    (hidle : sc.sc_pkg_size = 0) (hb1 : b1 < 256) (hb2 : b2 < 256) :
    ((kbd_feed sc [0xfa, b1, b2] now).2 =
       [KbdOut.mouse [0xfa, b1, b2] 3 KBD_RMS_PKG] ∧
     (kbd_feed sc [0xfa, b1, b2] now).1.sc_pkg_size = 0) ∧
    (∀ s : KbdState,
      ((kbd_pkg_start s 0xf6).1.sc_pkg_size = 8 ∧
       (kbd_pkg_start s 0xf6).1.sc_pkg_type = KBD_MEM_PKG) ∧
      ((kbd_pkg_start s 0xf7).1.sc_pkg_size = 6 ∧
       (kbd_pkg_start s 0xf7).1.sc_pkg_type = KBD_AMS_PKG) ∧
      (∀ h ∈ ([0xf8, 0xf9, 0xfa, 0xfb] : List Nat),
        (kbd_pkg_start s h).1.sc_pkg_size = 3 ∧
        (kbd_pkg_start s h).1.sc_pkg_type = KBD_RMS_PKG) ∧
      ((kbd_pkg_start s 0xfc).1.sc_pkg_size = 7 ∧
       (kbd_pkg_start s 0xfc).1.sc_pkg_type = KBD_CLK_PKG) ∧
      ((kbd_pkg_start s 0xfe).1.sc_pkg_size = 2 ∧
       (kbd_pkg_start s 0xfe).1.sc_pkg_type = KBD_JOY0_PKG) ∧
      ((kbd_pkg_start s 0xff).1.sc_pkg_size = 2 ∧
       (kbd_pkg_start s 0xff).1.sc_pkg_type = KBD_JOY1_PKG)) := by
  constructor
  · simp [kbd_feed, kbd_code_step, kbd_pkg_start, hidle, KBD_IS_KEY,
      KBD_RMS_PKG, KBD_AMS_PKG, KBD_JOY1_PKG, upd, List.range_succ]
  · intro s
    refine ⟨?_, ?_, ?_, ?_, ?_, ?_⟩ <;>
      simp [kbd_pkg_start, KBD_MEM_PKG, KBD_AMS_PKG, KBD_RMS_PKG,
        KBD_CLK_PKG, KBD_JOY0_PKG, KBD_JOY1_PKG]

/-- C3 witness: header `0xFA` then bytes `0x12`, `0x34` from the initial
state yield one relative-mouse packet and return to idle. -/
theorem pkg_fa_assembly_witness :
    (kbd_feed initState [0xfa, 0x12, 0x34] 0).2 =
      [KbdOut.mouse [0xfa, 0x12, 0x34] 3 KBD_RMS_PKG] :=
  ((pkg_fa_assembly initState 0x12 0x34 0 rfl (by decide) (by decide)).1).1

/-- The plain-scancode routing never touches the package-assembly fields
nor the delivery-mode fields. -/
lemma kbd_plain_dispatch_frame (sc : KbdState) (c now : Nat) :
    (kbd_plain_dispatch sc c now).1.sc_pkg_size = sc.sc_pkg_size ∧
    (kbd_plain_dispatch sc c now).1.sc_pkg_idx = sc.sc_pkg_idx ∧
    (kbd_plain_dispatch sc c now).1.sc_event_mode = sc.sc_event_mode ∧
    (kbd_plain_dispatch sc c now).1.sc_wskbddev = sc.sc_wskbddev ∧
    (kbd_plain_dispatch sc c now).1.sc_pollingmode = sc.sc_pollingmode := by
  simp only [kbd_plain_dispatch]
  split_ifs <;> simp

/-- With no assembly in progress, a key byte goes straight to the
plain-scancode routing. -/
lemma kbd_code_step_plain (sc : KbdState) (c now : Nat)
    (h0 : sc.sc_pkg_size = 0) (hk : KBD_IS_KEY c = true) :
    kbd_code_step sc c now = kbd_plain_dispatch sc c now := by
  simp [kbd_code_step, h0, hk]

/-- With no assembly in progress, feeding any sequence of key bytes is
exactly the plain-scancode routing fold. -/
lemma kbd_feed_plain (cs : List Nat) (sc : KbdState) (now : Nat)
    (h0 : sc.sc_pkg_size = 0) (hcs : ∀ c ∈ cs, KBD_IS_KEY c = true) :
    kbd_feed sc cs now = kbd_plain_feed sc cs now := by
  induction cs generalizing sc with
  | nil => rfl
  | cons c rest ih =>
    simp only [kbd_feed, kbd_plain_feed]
    rw [kbd_code_step_plain sc c now h0 (hcs c (by simp))]
    rw [ih (kbd_plain_dispatch sc c now).1
      (by rw [(kbd_plain_dispatch_frame sc c now).1, h0])
      (fun x hx => hcs x (by simp [hx]))]

/-- C4 — when no assembly is in progress, feeding an unrecognized
packet-header byte starts no assembly (the packet is logged and
discarded, `sc_pkg_size` stays 0), and every subsequent non-header byte
is processed exactly as a new plain scancode (the feed equals the
plain-scancode routing fold; nothing is accumulated into a packet). -/
theorem unknown_header_no_assembly (sc : KbdState) (h : Nat) (cs : List Nat)
    (now : Nat) (hidle : sc.sc_pkg_size = 0)
    (hhdr : KBD_IS_KEY h = false)
    (hunk : h ∉ ([0xf6, 0xf7, 0xf8, 0xf9, 0xfa, 0xfb, 0xfc, 0xfe, 0xff] :
      List Nat))
    (hcs : ∀ c ∈ cs, KBD_IS_KEY c = true) :
    (kbd_code_step sc h now).2 = [KbdOut.unknownPkg h] ∧
    (kbd_code_step sc h now).1.sc_pkg_size = 0 ∧
    kbd_feed (kbd_code_step sc h now).1 cs now =
      kbd_plain_feed (kbd_code_step sc h now).1 cs now := by
  simp only [List.mem_cons, List.mem_singleton, not_or] at hunk
  obtain ⟨u1, u2, u3, u4, u5, u6, u7, u8, u9⟩ := hunk
  have hstep : kbd_code_step sc h now =
      ({ sc with sc_pkg_idx := 1, sc_package := upd sc.sc_package 0 h },
       [KbdOut.unknownPkg h]) := by
    simp [kbd_code_step, kbd_pkg_start, hidle, hhdr,
      u1, u2, u3, u4, u5, u6, u7, u8, u9]
  refine ⟨by rw [hstep], by rw [hstep]; exact hidle, ?_⟩
  rw [hstep]
  exact kbd_feed_plain cs _ now hidle hcs

/-- C4 witness: the unrecognized header `0xFD` followed by scancode
`0x10`. -/
theorem unknown_header_no_assembly_witness :
    (kbd_code_step initState 0xfd 0).2 = [KbdOut.unknownPkg 0xfd] ∧
    (kbd_code_step initState 0xfd 0).1.sc_pkg_size = 0 ∧
    kbd_feed (kbd_code_step initState 0xfd 0).1 [0x10] 0 =
      kbd_plain_feed (kbd_code_step initState 0xfd 0).1 [0x10] 0 :=
  unknown_header_no_assembly initState 0xfd [0x10] 0 rfl (by decide)
    (by decide) (by decide)

/-! ## Input dispatcher -/

/-- With event mode off, no bridge attached and no assembly in progress,
feeding plain non-modifier scancodes delivers each to the ite
line-discipline filter exactly once, in feed order. -/
lemma kbd_feed_ite (cs : List Nat) (sc : KbdState) (now : Nat)
    (hw : sc.sc_wskbddev = false) (he : sc.sc_event_mode = 0)
    (hp : sc.sc_pkg_size = 0)
    (hcs : ∀ c ∈ cs, KBD_IS_KEY c = true ∧ isModifierCode c = false) :
    (kbd_feed sc cs now).2 = cs.map KbdOut.ite := by
  induction cs generalizing sc with
  | nil => rfl
  | cons c rest ih =>
    obtain ⟨hk, hm⟩ := hcs c (by simp)
    have hstep : kbd_code_step sc c now = (sc, [KbdOut.ite c]) := by
      rw [kbd_code_step_plain sc c now hp hk]
      cases sc
      simp_all [kbd_plain_dispatch, kbd_do_modifier_nonmod _ _ hm]
    simp only [kbd_feed, hstep, List.map_cons]
    rw [ih sc hw he hp (fun x hx => hcs x (by simp [hx]))]
    rfl

/-- C6 — the dispatcher's routing priority.  First conjunct: if a bridge
(wskbd) is attached, not in polling mode and not in event mode, a plain
scancode is forwarded to the bridge as press/release plus scancode, the
state (including the modifier mask) is untouched, and nothing else is
emitted.  Second conjunct: with event mode off and no bridge attached,
every plain non-modifier scancode pushed into the ring buffer is
forwarded by the drain-and-dispatch pass to the ite line-discipline
filter exactly once, in ring-buffer arrival order. -/
theorem dispatch_routing_priority :
    (∀ (sc : KbdState) (c now : Nat),
      sc.sc_wskbddev = true → sc.sc_pollingmode = 0 → sc.sc_event_mode = 0 →
      sc.sc_pkg_size = 0 → KBD_IS_KEY c = true →
      kbd_code_step sc c now =
        (sc, [KbdOut.wskbd (KBD_RELEASED c != 0) (KBD_SCANCODE c)])) ∧
    (∀ (sc : KbdState) (now : Nat) (r : Ring) (cs : List Nat),
      sc.sc_wskbddev = false → sc.sc_event_mode = 0 → sc.sc_pkg_size = 0 →
      r.get = r.put → cs.length ≤ KBD_RING_SIZE →
      (∀ c ∈ cs, c < 256 ∧ KBD_IS_KEY c = true ∧ isModifierCode c = false) →
      (kbd_feed sc (kbdsoft_drain (kbdintr_pushes r cs)).1 now).2 =
        cs.map KbdOut.ite) := by
  constructor
  · intro sc c now hw hpoll he hp hk
    rw [kbd_code_step_plain sc c now hp hk]
    simp [kbd_plain_dispatch, hw, hpoll, he]
  · intro sc now r cs hw he hp hsync hlen hcs
    rw [(kbdsoft_drain_pushes r cs hsync hlen).1]
    exact kbd_feed_ite cs sc now hw he hp (fun c hc => (hcs c hc).2)

/-- C6 witness: scancode `0x10` through the bridge path, and scancodes
`[0x10, 0x90]` (press and release of key 0x10) through the ring to the
ite path. -/
theorem dispatch_routing_priority_witness :
    kbd_code_step { initState with sc_wskbddev := true } 0x10 0 =
      ({ initState with sc_wskbddev := true },
       [KbdOut.wskbd false 0x10]) ∧
    (kbd_feed initState
      (kbdsoft_drain (kbdintr_pushes ⟨fun _ => 0, 0, 0⟩ [0x10, 0x90])).1
      0).2 = [KbdOut.ite 0x10, KbdOut.ite 0x90] :=
  ⟨dispatch_routing_priority.1 { initState with sc_wskbddev := true } 0x10 0
     rfl rfl rfl rfl (by decide),
   dispatch_routing_priority.2 initState 0 ⟨fun _ => 0, 0, 0⟩ [0x10, 0x90]
     rfl rfl rfl rfl (by decide) (by decide)⟩

/-! ## Event queue delivery -/

/-- C7 — in event mode, each decoded keystroke is enqueued as a
`firm_event` carrying the current timestamp, the scancode id and the
press/release value, and `ev_put` advances.  When the queue is full
(advancing `ev_put` would hit `ev_get`), the new event is dropped with a
warning logged: `ev_put`, `ev_get` and the stored entries are all
unchanged (only the modifier mask, updated before the queue stage, may
change), no older entry is evicted, and the producer returns normally
without reporting failure. -/
theorem event_mode_enqueue (sc : KbdState) (c now : Nat)
    (hev : sc.sc_event_mode ≠ 0) (hp : sc.sc_pkg_size = 0)
    (hk : KBD_IS_KEY c = true) :
    ((sc.ev_put + 1) % EV_QSIZE ≠ sc.ev_get →
      kbd_code_step sc c now =
        ({ sc with
            kbd_modifier := (kbd_do_modifier sc.kbd_modifier c).1,
            ev_q := upd sc.ev_q sc.ev_put
              ⟨KBD_SCANCODE c,
               if KBD_RELEASED c != 0 then VKEY_UP else VKEY_DOWN, now⟩,
            ev_put := (sc.ev_put + 1) % EV_QSIZE },
         [KbdOut.evPut ⟨KBD_SCANCODE c,
            if KBD_RELEASED c != 0 then VKEY_UP else VKEY_DOWN, now⟩])) ∧
    ((sc.ev_put + 1) % EV_QSIZE = sc.ev_get →
      kbd_code_step sc c now =
        ({ sc with kbd_modifier := (kbd_do_modifier sc.kbd_modifier c).1 },
         [KbdOut.evOverflow])) := by
  have hne : ¬ (sc.sc_pollingmode = 0 ∧ sc.sc_wskbddev = true ∧
      sc.sc_event_mode = 0) := by
    rintro ⟨-, -, h⟩
    exact hev h
  rw [kbd_code_step_plain sc c now hp hk]
  constructor
  · intro hroom
    simp [kbd_plain_dispatch, hne, hev, hroom]
  · intro hfull
    simp [kbd_plain_dispatch, hne, hev, hfull]

/-- C7 witness: with `ev_put = 0` and `ev_get = 1` the queue is full; the
keystroke is dropped with only the warning emitted and the state intact. -/
theorem event_mode_enqueue_witness :
    kbd_code_step { initState with sc_event_mode := 1, ev_get := 1 } 0x10 5 =
      ({ initState with sc_event_mode := 1, ev_get := 1 },
       [KbdOut.evOverflow]) :=
  (event_mode_enqueue { initState with sc_event_mode := 1, ev_get := 1 }
    0x10 5 (by decide) rfl (by decide)).2 (by decide)

/-! ## Bell codec -/

lemma or_low_high (x hi : Nat) :
    (x &&& 255) ||| (((x >>> 8) &&& (2 ^ hi - 1)) <<< 8) = x % 2 ^ (8 + hi) := by
  apply Nat.eq_of_testBit_eq
  intro j
  rw [show (255 : Nat) = 2 ^ 8 - 1 from rfl]
  simp only [Nat.testBit_lor, Nat.testBit_land, Nat.testBit_shiftLeft,
    Nat.testBit_shiftRight, Nat.testBit_mod_two_pow,
    Nat.testBit_two_pow_sub_one]
  by_cases h8 : j < 8
  · have h1 : ¬ (8 ≤ j) := by omega
    have h2 : j < 8 + hi := by omega
    simp [h8, h1, h2]
  · by_cases h2 : j < 8 + hi
    · have h1 : 8 ≤ j := by omega
      have h3 : j - 8 < hi := by omega
      have h4 : 8 + (j - 8) = j := by omega
      simp [h8, h1, h2, h3, h4]
    · have h1 : 8 ≤ j := by omega
      have h3 : ¬ (j - 8 < hi) := by omega
      simp [h8, h1, h2, h3]

lemma or_low_high8 (x : Nat) :
    (x &&& 0xff) ||| (((x >>> 8) &&& 0xff) <<< 8) = x % 65536 := by
  have h := or_low_high x 8
  norm_num at h
  exact h

lemma or_low_high4 (x : Nat) :
    (x &&& 0xff) ||| (((x >>> 8) &&& 0xf) <<< 8) = x % 4096 := by
  have h := or_low_high x 4
  norm_num at h
  exact h

/-- C8 counterexample — the claim says the decoded pitch reconstructs `p`
whenever `10 <= p <= 20000`; at `p = 20000` (with `v = 0`, `d = 100`) the
stored divisor is `125000 / 20000 = 6` and the decoded pitch is
`125000 / 6 = 20833`, not 20000. -/
theorem bell_codec_pitch_counterexample :
    (kbd_bell_gparms (kbd_bell_sparms 0 20000 100 sound_init)).2.1 ≠ 20000 := by
  decide

/-- C8 (amended) — for all `u_int` inputs `v, p, d`: the decoded volume is
always 0; the decoded duration is
`((d*1000 mod 2^32)/128 mod 2^16)*128/1000` — the tick count is truncated
to 16 bits, so it equals the claim's round-trip value `(d*1000/128)*128/1000`
only when the tick count fits (`d ≤ 8388`); the decoded pitch is
`125000 / ((125000 / clamp(p)) mod 4096)` — the divisor field holds only
12 bits, and even without truncation (`31 ≤ p ≤ 20000`) the
reconstruction is `125000 / (125000 / p)`, the divisor-rounding
approximation of `p`, not `p` itself (nor exactly the clamped boundary
value outside the range). -/
theorem bell_codec_roundtrip (v p d : Nat) (s : Nat → Nat)
    (hp : p < 2 ^ 32) (hd : d < 2 ^ 32) :
    kbd_bell_gparms (kbd_bell_sparms v p d s) =
      (0,
       KBDBELLCLOCK / (KBDBELLCLOCK / bellClampedPitch p % 4096),
       d * 1000 % 2 ^ 32 / KBDBELLDURATION % 65536 * KBDBELLDURATION / 1000) ∧
    (d ≤ 8388 →
      (kbd_bell_gparms (kbd_bell_sparms v p d s)).2.2 =
        d * 1000 / KBDBELLDURATION * KBDBELLDURATION / 1000) ∧
    (31 ≤ p → p ≤ 20000 →
      (kbd_bell_gparms (kbd_bell_sparms v p d s)).2.1 =
        KBDBELLCLOCK / (KBDBELLCLOCK / p)) := by
  have hclamp :
      (if (if p > 10 then p else 10) > 20000 then 20000
       else if p > 10 then p else 10) = bellClampedPitch p := by
    simp only [bellClampedPitch]
    split_ifs <;> omega
  have hmain : kbd_bell_gparms (kbd_bell_sparms v p d s) =
      (0,
       KBDBELLCLOCK / (KBDBELLCLOCK / bellClampedPitch p % 4096),
       d * 1000 % 2 ^ 32 / KBDBELLDURATION % 65536 * KBDBELLDURATION /
         1000) := by
    simp only [kbd_bell_gparms, kbd_bell_sparms, upd]
    norm_num
    rw [or_low_high8, or_low_high4, hclamp]
    exact ⟨rfl, rfl⟩
  refine ⟨hmain, ?_, ?_⟩
  · intro hsmall
    rw [hmain]
    have h1 : d * 1000 % 2 ^ 32 = d * 1000 := by omega
    have h2 : d * 1000 / KBDBELLDURATION % 65536 =
        d * 1000 / KBDBELLDURATION := by
      simp only [KBDBELLDURATION]
      omega
    rw [h1, h2]
  · intro h31 h20000
    rw [hmain]
    have hcl : bellClampedPitch p = p := by
      simp only [bellClampedPitch]
      omega
    rw [hcl]
    simp only [KBDBELLCLOCK]
    have hfit : (125000 : Nat) / p % 4096 = 125000 / p := by
      have hdiv : (125000 : Nat) / p ≤ 125000 / 31 :=
        Nat.div_le_div_left h31 (by omega)
      have h31v : (125000 : Nat) / 31 = 4032 := by norm_num
      generalize hq : (125000 : Nat) / p = q at hdiv ⊢
      omega
    rw [hfit]

/-- C8 witness: pitch 440 and duration 100 round-trip through the
divisor-rounding formula. -/
theorem bell_codec_roundtrip_witness :
    (kbd_bell_gparms (kbd_bell_sparms 0 440 100 sound_init)).2.1 =
      KBDBELLCLOCK / (KBDBELLCLOCK / 440) :=
  (bell_codec_roundtrip 0 440 100 sound_init (by norm_num)
    (by norm_num)).2.2 (by norm_num) (by norm_num)

/-! ## Command writer -/

/-- C9 — if no previous write is pending (`sc_sendp` is NULL with
`sc_send_cnt` 0) and the hardware reports transmit-ready immediately,
`kbd_write` with a command of length 1 sends the byte synchronously and
returns without reaching either `tsleep` (neither the `"kbd_write1"`
wait-for-previous loop nor the `"kbd_write2"` drain wait), leaving no
pending outbound state: `sc_sendp` stays NULL and `sc_send_cnt` stays 0
(only the transmit-interrupt enable bit is set in the control-register
copy). -/
theorem kbd_write_len1_sync (b soft_cs0 : Nat) :
    kbd_write none 0 soft_cs0 true [b] 1 =
      { sent := [b], sleptPrev := false, sleptDrain := false,
        sc_sendp := none, sc_send_cnt := 0,
        sc_soft_cs := soft_cs0 ||| A_TXINT } := by
  simp [kbd_write]

/-! ## The ioctl handler -/

/-- C10 — the `FIOSETOWN` and `TIOCSPGRP` requests only validate the
caller: `FIOSETOWN` returns 0 exactly when the value matches the
registered opener (its pid, or the negated pgid) and `TIOCSPGRP` exactly
when it equals the opener's pgid; they return `EPERM` otherwise; in every
case the driver state — all softc fields, the event queue and the
modifier state — is returned unchanged, and the requested value is not
stored anywhere. -/
theorem kbdioctl_setown_frame (sc : KbdState) (v : Int) :
    ((kbdioctl sc (.fioSetOwn v)).2 = sc ∧
     (kbdioctl sc (.fioSetOwn v)).1 =
       (if -v = sc.ev_io_pgid ∨ v = sc.ev_io_pid then 0 else EPERM)) ∧
    ((kbdioctl sc (.tiocSPGrp v)).2 = sc ∧
     (kbdioctl sc (.tiocSPGrp v)).1 =
       (if v = sc.ev_io_pgid then 0 else EPERM)) := by
  refine ⟨⟨?_, ?_⟩, ⟨?_, ?_⟩⟩ <;> simp only [kbdioctl] <;> split_ifs <;>
    first
    | rfl
    | tauto

end AtariKbd
